import Mathlib

/-!
Shallow embedding of the color/theme core of the `emissor-de-certificados`
repository (files `src/utils/color.py`, `src/components/themes/base_theme.py`,
`src/components/themes/themes.py`), together with theorems settling the
specification claims about it.

Modelling conventions:
* Python numbers that may be non-integral (channel values, alpha weights) are
  rationals (`ℚ`); results of `math.ceil` are integers (`ℤ`).
* A Python exception is a value of `PyErr`; a function that can raise returns
  `Except PyErr α`.  Exception messages are elided: only the exception kind is
  modelled, no claim depends on a message text.
* The in-place mutation of the argument list performed by `rgba_to_rgb` and
  `rgba_to_hex` (the `rgba_color.append(1)` statement) is modelled with
  explicit state passing: both functions return the pair of their result and
  the final state of the caller's list.
-/

attribute [local semireducible] Rat.mul Rat.inv Rat.add Rat.sub

/-- Decidable equality of `Except` values, used to evaluate the embedded
functions on concrete inputs inside proofs. -/
instance {ε α : Type} [DecidableEq ε] [DecidableEq α] : DecidableEq (Except ε α) :=
  fun a b =>
    match a, b with
    | .error e, .error e' => decidable_of_iff (e = e') (by simp)
    | .error _, .ok _ => isFalse (by simp)
    | .ok _, .error _ => isFalse (by simp)
    | .ok v, .ok v' => decidable_of_iff (v = v') (by simp)

/-- Whether a fallible computation finished without raising (Boolean so that
it can be evaluated on concrete inputs). -/
def exceptIsOk {ε α : Type} : Except ε α → Bool
  | .ok _ => true
  | .error _ => false

/-- Kinds of Python exceptions raised by the embedded code. -/
inductive PyErr where
  | valueError : PyErr
  | typeError : PyErr
  | attributeError : PyErr
deriving DecidableEq, Repr

/-- Model of `math.ceil` on a rational. -/
def pyCeil (q : ℚ) : ℤ := Int.ceil q

/-- Model of Python `str.zfill(2)`: left-pad with `'0'` to width at least 2. -/
def zfill2 (s : String) : String :=
  String.mk (List.replicate (2 - s.length) '0') ++ s

/-- Big-endian base-16 digit characters of `n`, lowercase, by fuel recursion
(the fuel argument only bounds the recursion depth). -/
def natHexAux : Nat → Nat → List Char
  | 0, _ => []
  | fuel + 1, n => if n = 0 then [] else natHexAux fuel (n / 16) ++ [Nat.digitChar (n % 16)]

/-- Model of Python `hex(n)[2:]` for a nonnegative integer `n`: the lowercase
base-16 digits without the `0x` prefix (`hex(0)[2:] = "0"`). -/
def pyHexBody (n : ℤ) : String :=
  if n.toNat = 0 then "0" else String.mk (natHexAux n.toNat n.toNat)

/-- Whether `c` is one of the characters matched by the regex class
`[0-9a-fA-F]`. -/
def isHexDigitChar (c : Char) : Bool :=
  (decide ('0' ≤ c) && decide (c ≤ '9')) ||
  (decide ('a' ≤ c) && decide (c ≤ 'f')) ||
  (decide ('A' ≤ c) && decide (c ≤ 'F'))

/-- Numeric value of a hexadecimal digit character (0 on other characters,
which never reach it in the embedded code). -/
def hexDigitVal (c : Char) : Nat :=
  if '0' ≤ c ∧ c ≤ '9' then c.toNat - '0'.toNat
  else if 'a' ≤ c ∧ c ≤ 'f' then c.toNat - 'a'.toNat + 10
  else if 'A' ≤ c ∧ c ≤ 'F' then c.toNat - 'A'.toNat + 10
  else 0

/-- Model of Python `int(s, 16)` on a string of hexadecimal digit
characters. -/
def parseHexDigits (cs : List Char) : ℤ :=
  ((cs.foldl (fun acc c => acc * 16 + hexDigitVal c) 0 : ℕ) : ℤ)

/-- Model of the full match performed by
`re.match(r"^(?:[0-9a-fA-F]{2}){3}$", s)`: six hexadecimal digits, where the
Python `$` anchor also matches just before a single newline at the end of the
string. -/
def reMatchHex (l : List Char) : Bool :=
  (l.length == 6 && l.all isHexDigitChar) ||
  (l.length == 7 && (l.take 6).all isHexDigitChar && (l.getD 6 ' ' == '\n'))

/-- The `Color` class of `src/utils/color.py`: the stored fields `_rgb`,
`_hex`, `_r`, `_g`, `_b`. -/
structure Color where
  rgb : List ℤ
  hex : String
  r : ℤ
  g : ℤ
  b : ℤ
deriving DecidableEq, Repr

namespace Color

/-- Model of `Color.rgba_to_rgb` (color.py lines 107–125).  Validates the list, then
appends the default alpha `1` to the caller's 3-element list (an in-place
mutation, hence the second component: the final state of the caller's list),
and returns the alpha-premultiplied, ceiling-rounded channel triple. -/
def rgba_to_rgb (l : List ℚ) : Except PyErr (List ℤ) × List ℚ :=
  if l.length ≠ 3 ∧ l.length ≠ 4 then (.error .valueError, l)
  else if l.length = 4 ∧ (l.getD 3 0 < 0 ∨ 1 < l.getD 3 0) then (.error .valueError, l)
  else if (l.getD 0 0 < 0 ∨ 255 < l.getD 0 0) ∨ (l.getD 1 0 < 0 ∨ 255 < l.getD 1 0) ∨
      (l.getD 2 0 < 0 ∨ 255 < l.getD 2 0) then (.error .valueError, l)
  else
    let l' := if l.length = 3 then l ++ [1] else l
    (.ok [pyCeil (l'.getD 0 0 * l'.getD 3 0), pyCeil (l'.getD 1 0 * l'.getD 3 0),
      pyCeil (l'.getD 2 0 * l'.getD 3 0)], l')

/-- Model of `Color.rgba_to_hex` (color.py lines 135–153): same validation and list
mutation as `rgba_to_rgb`, producing `"#" + hex(ceil(ch*a))[2:].zfill(2)`
per channel. -/
def rgba_to_hex (l : List ℚ) : Except PyErr String × List ℚ :=
  if l.length ≠ 3 ∧ l.length ≠ 4 then (.error .valueError, l)
  else if l.length = 4 ∧ (l.getD 3 0 < 0 ∨ 1 < l.getD 3 0) then (.error .valueError, l)
  else if (l.getD 0 0 < 0 ∨ 255 < l.getD 0 0) ∨ (l.getD 1 0 < 0 ∨ 255 < l.getD 1 0) ∨
      (l.getD 2 0 < 0 ∨ 255 < l.getD 2 0) then (.error .valueError, l)
  else
    let l' := if l.length = 3 then l ++ [1] else l
    (.ok ("#" ++ zfill2 (pyHexBody (pyCeil (l'.getD 0 0 * l'.getD 3 0)))
      ++ zfill2 (pyHexBody (pyCeil (l'.getD 1 0 * l'.getD 3 0)))
      ++ zfill2 (pyHexBody (pyCeil (l'.getD 2 0 * l'.getD 3 0)))), l')

/-- Model of `Color.hex_to_rgb` (color.py lines 162–174): strips every leading `'#'`
(`lstrip("#")`), requires the regex match (see `reMatchHex`), then parses the
three 2-character slices `[0:offset]`, `[offset:2*offset]`,
`[2*offset:3*offset]` with `offset = len // 3`. -/
def hex_to_rgb (s : String) : Except PyErr (List ℤ) :=
  let t := s.data.dropWhile (fun c => c == '#')
  if reMatchHex t then
    let offset := t.length / 3
    .ok [parseHexDigits (t.take offset), parseHexDigits ((t.drop offset).take offset),
      parseHexDigits ((t.drop (offset * 2)).take offset)]
  else .error .valueError

/-- The list branch of `Color.__init__` (color.py lines 24–36):
`_rgb = rgba_to_rgb(color)`, then `_hex = rgba_to_hex(color)` where `color`
is the list as mutated by the first call, then `_r`, `_g`, `_b` from
`_rgb`. -/
def ofList (l : List ℚ) : Except PyErr Color :=
  match rgba_to_rgb l with
  | (.error e, _) => .error e
  | (.ok rgbv, l') =>
    match rgba_to_hex l' with
    | (.error e, _) => .error e
    | (.ok hx, _) =>
      .ok ⟨rgbv, hx, rgbv.getD 0 0, rgbv.getD 1 0, rgbv.getD 2 0⟩

/-- The string branch of `Color.__init__` (color.py lines 24–36):
`_rgb = hex_to_rgb(color)` and `_hex = color` (the input string is stored
verbatim), then `_r`, `_g`, `_b` from `_rgb`. -/
def ofHex (s : String) : Except PyErr Color :=
  match hex_to_rgb s with
  | .error e => .error e
  | .ok rgbv => .ok ⟨rgbv, s, rgbv.getD 0 0, rgbv.getD 1 0, rgbv.getD 2 0⟩

/-- The `r` setter (color.py lines 43–47): builds
`[new_value, self.rgb[1], self.rgb[2]]`, constructs a `Color` from it and
overwrites every field of `self` with the fields of that fresh `Color`
(`self.__dict__.update(...)`); the result is the new state of `self`. -/
def setR (self : Color) (v : ℚ) : Except PyErr Color :=
  ofList [v, (self.rgb.getD 1 0 : ℚ), (self.rgb.getD 2 0 : ℚ)]

/-- Well-formedness of a `Color` value: exactly what holds of every `Color`
produced by the constructor — three channels, each in `[0,255]`, a hex field
that parses back to the stored channels, and `_r`, `_g`, `_b` mirroring the
channel list. -/
def WF (c : Color) : Prop :=
  c.rgb.length = 3 ∧ (∀ x ∈ c.rgb, 0 ≤ x ∧ x ≤ 255) ∧
    hex_to_rgb c.hex = .ok c.rgb ∧
    c.r = c.rgb.getD 0 0 ∧ c.g = c.rgb.getD 1 0 ∧ c.b = c.rgb.getD 2 0

/-- Well-formedness is decidable, so it can be checked on concrete colors. -/
instance (c : Color) : Decidable c.WF := by
  unfold WF
  infer_instance

end Color

/-- An element of the list accepted by `Color.blend_list`: a `Color`
instance, a channel list, or a hexadecimal string. -/
inductive BlendItem where
  | color (c : Color) : BlendItem
  | chans (l : List ℚ) : BlendItem
  | hexStr (s : String) : BlendItem

/-- Per-element normalization of `Color.blend_list` (color.py lines 197–206):
a `Color` contributes its `rgb`, a list goes through `rgba_to_rgb`, a string
through `hex_to_rgb`. -/
def itemRgb : BlendItem → Except PyErr (List ℤ)
  | .color c => .ok c.rgb
  | .chans l => (Color.rgba_to_rgb l).1
  | .hexStr s => Color.hex_to_rgb s

/-- One iteration of the accumulation loop of `Color.blend_list`
(color.py lines 197–209), threading the first exception raised. -/
def addItem (acc : Except PyErr (ℤ × ℤ × ℤ)) (it : BlendItem) :
    Except PyErr (ℤ × ℤ × ℤ) :=
  match acc with
  | .error e => .error e
  | .ok (r, g, b) =>
    match itemRgb it with
    | .error e => .error e
    | .ok l => .ok (r + l.getD 0 0, g + l.getD 1 0, b + l.getD 2 0)

namespace Color

/-- Model of `Color.blend_list` (color.py lines 189–215): rejects the empty list, sums
the normalized channels of every element, takes the ceiling of each channel
mean and builds a `Color` from the resulting channel list. -/
def blend_list (items : List BlendItem) : Except PyErr Color :=
  if items.length = 0 then .error .valueError
  else
    match items.foldl addItem (.ok (0, 0, 0)) with
    | .error e => .error e
    | .ok (r, g, b) =>
      ofList [(pyCeil ((r : ℚ) / (items.length : ℚ)) : ℚ),
        (pyCeil ((g : ℚ) / (items.length : ℚ)) : ℚ),
        (pyCeil ((b : ℚ) / (items.length : ℚ)) : ℚ)]

/-- Model of `Color.blend` (color.py lines 224–230):
`blended = blend_list([self.hex, other.hex])`; with `inplace` the fields of
`self` are overwritten from `blended` and `self` is returned, otherwise
`blended` is returned and `self` is untouched.  The result pairs the returned
color value with the final state of `self`. -/
def blend (self other : Color) (inplace : Bool) : Except PyErr (Color × Color) :=
  match blend_list [.hexStr self.hex, .hexStr other.hex] with
  | .error e => .error e
  | .ok blended => if inplace then .ok (blended, blended) else .ok (blended, self)

end Color

/-- The level/alpha table of `ElevationOverlay.__init__`
(base_theme.py lines 117–118). -/
def elevAlphas : List (ℤ × ℚ) :=
  [(1, 5/100), (2, 7/100), (3, 8/100), (4, 9/100), (6, 11/100), (8, 12/100),
    (12, 14/100), (16, 15/100), (24, 16/100)]

/-- Model of the f-string `f"{n:02d}"`: decimal representation zero-padded to
width 2 (at width 2 the sign-aware padding of Python coincides with plain
left-padding). -/
def pad2 (n : ℤ) : String :=
  let s := toString n
  String.mk (List.replicate (2 - s.length) '0') ++ s

/-- The dictionary key `f"dp{n:02d}"` used by `ElevationOverlay`. -/
def elevKey (n : ℤ) : String := "dp" ++ pad2 n

namespace ElevationOverlay

/-- Model of `ElevationOverlay.__init__` (base_theme.py lines 116–122): for each
canonical level, blend the surface with the contrast channels weighted by the
level's alpha, and store `str(color)` — that is, the color's hex string — under
the key `f"dp{n:02d}"`. -/
def make (surface contrast : Color) : Except PyErr (List (String × String)) :=
  elevAlphas.mapM fun p =>
    (Color.blend_list [.color surface,
      .chans [(contrast.r : ℚ), (contrast.g : ℚ), (contrast.b : ℚ), p.2]]).map
      fun c => (elevKey p.1, c.hex)

/-- Model of `ElevationOverlay.get_elevation` (base_theme.py lines 130–134): looks up
`f"dp{level:02d}"` in the stored members; a missing key (a `KeyError` caught
by the bare `except`) is re-raised as a `ValueError`.  The value returned on
success is the stored string. -/
def get_elevation (members : List (String × String)) (lvl : ℤ) :
    Except PyErr String :=
  match members.lookup (elevKey lvl) with
  | some v => .ok v
  | none => .error .valueError

end ElevationOverlay

/-- Model of `BaseTheme.EmphasisLevel` (base_theme.py lines 25–28). -/
inductive EmphasisLevel where
  | HIGH : EmphasisLevel
  | MEDIUM : EmphasisLevel
  | DISABLED : EmphasisLevel
deriving DecidableEq, Repr

namespace BlackTheme

/-- Model of `BlackTheme.surface = Color("#121212")` (themes.py line 15). -/
def surface : Except PyErr Color := Color.ofHex "#121212"

/-- Model of `BlackTheme.elevation_overlay = ElevationOverlay(surface, Color("#ffffff"))`
(themes.py line 19). -/
def elevation_overlay : Except PyErr (List (String × String)) := do
  let s ← surface
  let w ← Color.ofHex "#ffffff"
  ElevationOverlay.make s w

/-- Model of `BlackTheme.emphasis_on_surface` (themes.py lines 95–105): computes the
level's overlay hex via `rgba_to_hex` and then evaluates
`Color.blend([emphasis_blend_color, color.getHex()])`.  `Color` defines no
attribute `getHex`, so the argument evaluation raises `AttributeError` before
`Color.blend` is ever entered (and `Color.blend`, an instance method, is
called with a single list argument besides). -/
def emphasis_on_surface (color : Color) (lvl : EmphasisLevel) : Except PyErr Color :=
  match (match lvl with
    | .HIGH => (Color.rgba_to_hex [255, 255, 255, 87/100]).1
    | .MEDIUM => (Color.rgba_to_hex [255, 255, 255, 74/100]).1
    | .DISABLED => (Color.rgba_to_hex [255, 255, 255, 38/100]).1) with
  | .error e => .error e
  | .ok _ => .error .attributeError

/-- Model of `BlackTheme.emphasis_on_primary` (themes.py lines 116–126): same shape as
`emphasis_on_surface` with black overlays; it also ends in
`Color.blend([emphasis_blend_color, color.getHex()])` and therefore raises
`AttributeError`. -/
def emphasis_on_primary (color : Color) (lvl : EmphasisLevel) : Except PyErr Color :=
  match (match lvl with
    | .HIGH => (Color.rgba_to_hex [0, 0, 0, 1]).1
    | .MEDIUM => (Color.rgba_to_hex [0, 0, 0, 74/100]).1
    | .DISABLED => (Color.rgba_to_hex [0, 0, 0, 38/100]).1) with
  | .error e => .error e
  | .ok _ => .error .attributeError

end BlackTheme

namespace WhiteTheme

/-- Model of `WhiteTheme.emphasis_on_surface` (themes.py lines 209–219): black overlays
at alphas 0.87 / 0.60 / 0.38, then the same
`Color.blend([emphasis_blend_color, color.getHex()])` expression, raising
`AttributeError`. -/
def emphasis_on_surface (color : Color) (lvl : EmphasisLevel) : Except PyErr Color :=
  match (match lvl with
    | .HIGH => (Color.rgba_to_hex [0, 0, 0, 87/100]).1
    | .MEDIUM => (Color.rgba_to_hex [0, 0, 0, 60/100]).1
    | .DISABLED => (Color.rgba_to_hex [0, 0, 0, 38/100]).1) with
  | .error e => .error e
  | .ok _ => .error .attributeError

/-- Model of `WhiteTheme.emphasis_on_primary` (themes.py lines 230–240): white overlays
at alphas 1.00 / 0.74 / 0.38, then the same
`Color.blend([emphasis_blend_color, color.getHex()])` expression, raising
`AttributeError`. -/
def emphasis_on_primary (color : Color) (lvl : EmphasisLevel) : Except PyErr Color :=
  match (match lvl with
    | .HIGH => (Color.rgba_to_hex [255, 255, 255, 1]).1
    | .MEDIUM => (Color.rgba_to_hex [255, 255, 255, 74/100]).1
    | .DISABLED => (Color.rgba_to_hex [255, 255, 255, 38/100]).1) with
  | .error e => .error e
  | .ok _ => .error .attributeError

end WhiteTheme

/-- The spec's `normalize` on hex strings: canonical `#RRGGBB`, lowercase,
single `#` prefix (stated from the spec's words for comparison with the
code's behavior). -/
def specNormalize (s : String) : String :=
  "#" ++ String.map Char.toLower (String.mk (s.data.dropWhile (fun c => c == '#')))

/-- The exact set of strings accepted by the final revision of the hex
constructor: zero or more `'#'` characters, then exactly six hexadecimal
digits, then optionally a single trailing newline (admitted by the regex `$`
anchor). -/
def pyAcceptedHex (s : String) : Prop :=
  ∃ (k : ℕ) (ds tl : List Char),
    s.data = List.replicate k '#' ++ ds ++ tl ∧ ds.length = 6 ∧
      (∀ c ∈ ds, isHexDigitChar c = true) ∧ (tl = [] ∨ tl = ['\n'])

/-- Abbreviation for the `Color` value produced by the list constructor from
already-premultiplied integer channels `m₀ m₁ m₂`: the channel list, the
canonical lowercase hex string, and the three mirrored channel fields. -/
def mkColor (m₀ m₁ m₂ : ℤ) : Color :=
  ⟨[m₀, m₁, m₂],
    "#" ++ zfill2 (pyHexBody m₀) ++ zfill2 (pyHexBody m₁) ++ zfill2 (pyHexBody m₂),
    m₀, m₁, m₂⟩

/-- C1: the spec claims `emphasis_on_surface` / `emphasis_on_primary` return
the blend of the level overlay with the given color without raising.  In the
code, after computing the overlay hex, the final expression evaluates
`color.getHex()` on a `Color` that has no `getHex` attribute, so every call
raises `AttributeError` instead of returning a blend; this theorem shows all
four theme operations fail on every input. -/
theorem c1_emphasis_always_raises (color : Color) (lvl : EmphasisLevel) :
    BlackTheme.emphasis_on_surface color lvl = .error .attributeError ∧
    BlackTheme.emphasis_on_primary color lvl = .error .attributeError ∧
    WhiteTheme.emphasis_on_surface color lvl = .error .attributeError ∧
    WhiteTheme.emphasis_on_primary color lvl = .error .attributeError := by
  cases lvl <;> exact ⟨rfl, rfl, rfl, rfl⟩

/-- C1 witness: the failure at a concrete input, obtained from the theorem. -/
theorem c1_emphasis_always_raises_witness :
    BlackTheme.emphasis_on_surface ⟨[18, 18, 18], "#121212", 18, 18, 18⟩ .HIGH
      = .error .attributeError :=
  (c1_emphasis_always_raises ⟨[18, 18, 18], "#121212", 18, 18, 18⟩ .HIGH).1

/-- C2 counterexample: constructing a `Color` from the valid hex string
`"ABCDEF"` stores the string verbatim, so reading the hex back yields
`"ABCDEF"`, not the canonical normalized form `"#abcdef"` the claim
requires. -/
theorem c2_hex_not_normalized :
    (Color.ofHex "ABCDEF").map Color.hex = .ok "ABCDEF" ∧
    (Color.ofHex "ABCDEF").map Color.hex ≠ .ok (specNormalize "ABCDEF") := by
  constructor <;> decide

/-- C2 amended: for every string accepted by the hex constructor, the stored
hex representation is the input string itself, unchanged (no `#`-prefixing,
no lowercasing). -/
theorem c2_hex_stored_verbatim (s : String) (c : Color)
    (h : Color.ofHex s = .ok c) : c.hex = s := by
  revert h
  unfold Color.ofHex
  cases Color.hex_to_rgb s with
  | error e => intro h; cases h
  | ok rgbv => intro h; cases h; rfl

/-- C2 witness: the amended statement at the concrete input `"ABCDEF"`. -/
theorem c2_hex_stored_verbatim_witness :
    (⟨[171, 205, 239], "ABCDEF", 171, 205, 239⟩ : Color).hex = "ABCDEF" :=
  c2_hex_stored_verbatim "ABCDEF" ⟨[171, 205, 239], "ABCDEF", 171, 205, 239⟩
    (by decide)

/-- C3: demonstration at the failing input of the code bug — for the
canonical level 8 the lookup succeeds but the value handed back is the stored
hex *string* `"#191919"` (the constructor stores `str(color)`), not a `Color`
as the method's own `-> Color` annotation and the claim state; the
non-canonical level 5 raises the not-found (`ValueError`) error as
claimed. -/
theorem c3_get_elevation_returns_string :
    (do
      let m ← BlackTheme.elevation_overlay
      ElevationOverlay.get_elevation m 8) = .ok "#191919" ∧
    (do
      let m ← BlackTheme.elevation_overlay
      ElevationOverlay.get_elevation m 5) = .error .valueError := by
  constructor <;> decide

/-- C7: the elevation overlay built from surface `#121212` and contrast
`#ffffff` maps level 8 to `#191919`: the 12% white overlay premultiplies to
`[31,31,31]`, the surface parses to `[18,18,18]`, their channel-ceiling mean
is `[25,25,25]`, and the stored level-8 value is the hex `"#191919"`
(reproducible across constructions since the computation is a pure function
of the two input colors). -/
theorem c7_elevation_level8_pinned :
    (Color.rgba_to_rgb [255, 255, 255, 12/100]).1 = .ok [31, 31, 31] ∧
    (Color.ofHex "#121212").map Color.rgb = .ok [18, 18, 18] ∧
    (do
      let s ← Color.ofHex "#121212"
      let w ← Color.ofHex "#ffffff"
      (Color.blend_list [.color s, .chans [(w.r : ℚ), (w.g : ℚ), (w.b : ℚ), 12/100]]).map
        Color.rgb) = .ok [25, 25, 25] ∧
    (do
      let s ← Color.ofHex "#121212"
      let w ← Color.ofHex "#ffffff"
      let m ← ElevationOverlay.make s w
      ElevationOverlay.get_elevation m 8) = .ok "#191919" := by
  refine ⟨?_, ?_, ?_, ?_⟩ <;> decide

set_option maxRecDepth 4000 in
/-- Every value in `[0,255]` encoded by the 2-digit hex encoder yields two
hexadecimal digit characters that parse back to the value. -/
theorem hexEncodeRoundTrip : ∀ n : ℕ, n < 256 →
    (zfill2 (pyHexBody (n : ℤ))).data.length = 2 ∧
    (∀ c ∈ (zfill2 (pyHexBody (n : ℤ))).data, isHexDigitChar c = true) ∧
    parseHexDigits ((zfill2 (pyHexBody (n : ℤ))).data) = (n : ℤ) := by decide

/-- Integer version of `hexEncodeRoundTrip`. -/
theorem hexEncodeRoundTrip_int (m : ℤ) (h0 : 0 ≤ m) (h1 : m ≤ 255) :
    (zfill2 (pyHexBody m)).data.length = 2 ∧
    (∀ c ∈ (zfill2 (pyHexBody m)).data, isHexDigitChar c = true) ∧
    parseHexDigits ((zfill2 (pyHexBody m)).data) = m := by
  have hm : ((m.toNat : ℤ)) = m := Int.toNat_of_nonneg h0
  have hlt : m.toNat < 256 := by omega
  have := hexEncodeRoundTrip m.toNat hlt
  rwa [hm] at this

/-- A hexadecimal digit character is not `'#'`. -/
theorem hexDigit_ne_hash (c : Char) (h : isHexDigitChar c = true) : (c == '#') = false := by
  revert h
  unfold isHexDigitChar
  by_cases hc : c = '#'
  · subst hc; decide
  · intro _; simpa using hc

/-- The ceiling of an alpha-premultiplied channel stays in `[0,255]`. -/
theorem pyCeil_bounds (x a : ℚ) (hx0 : 0 ≤ x) (hx1 : x ≤ 255)
    (ha0 : 0 ≤ a) (ha1 : a ≤ 1) : 0 ≤ pyCeil (x * a) ∧ pyCeil (x * a) ≤ 255 := by
  constructor
  · exact Int.ceil_nonneg (mul_nonneg hx0 ha0)
  · have : x * a ≤ 255 := by
      calc x * a ≤ 255 * 1 := by
            exact mul_le_mul hx1 ha1 ha0 (by norm_num)
        _ = 255 := by norm_num
    exact Int.ceil_le.mpr (by exact_mod_cast this)

/-- Evaluation of `rgba_to_rgb` on a valid 4-element list. -/
theorem rgba_to_rgb_four (a b c d : ℚ) (hd0 : 0 ≤ d) (hd1 : d ≤ 1)
    (ha0 : 0 ≤ a) (ha1 : a ≤ 255) (hb0 : 0 ≤ b) (hb1 : b ≤ 255)
    (hc0 : 0 ≤ c) (hc1 : c ≤ 255) :
    Color.rgba_to_rgb [a, b, c, d] =
      (.ok [pyCeil (a * d), pyCeil (b * d), pyCeil (c * d)], [a, b, c, d]) := by
  unfold Color.rgba_to_rgb
  rw [if_neg (by simp), if_neg ?hb, if_neg ?hc]
  case hb =>
    rintro ⟨-, h | h⟩
    · exact absurd (show d < 0 from h) (not_lt.mpr hd0)
    · exact absurd (show 1 < d from h) (not_lt.mpr hd1)
  case hc =>
    rintro ((h | h) | (h | h) | (h | h))
    · exact absurd (show a < 0 from h) (not_lt.mpr ha0)
    · exact absurd (show (255 : ℚ) < a from h) (not_lt.mpr ha1)
    · exact absurd (show b < 0 from h) (not_lt.mpr hb0)
    · exact absurd (show (255 : ℚ) < b from h) (not_lt.mpr hb1)
    · exact absurd (show c < 0 from h) (not_lt.mpr hc0)
    · exact absurd (show (255 : ℚ) < c from h) (not_lt.mpr hc1)
  rfl

/-- Evaluation of `rgba_to_rgb` on a valid 3-element list: the default alpha
`1` is appended to the list before premultiplication. -/
theorem rgba_to_rgb_three (a b c : ℚ)
    (ha0 : 0 ≤ a) (ha1 : a ≤ 255) (hb0 : 0 ≤ b) (hb1 : b ≤ 255)
    (hc0 : 0 ≤ c) (hc1 : c ≤ 255) :
    Color.rgba_to_rgb [a, b, c] =
      (.ok [pyCeil (a * 1), pyCeil (b * 1), pyCeil (c * 1)], [a, b, c, 1]) := by
  unfold Color.rgba_to_rgb
  rw [if_neg (by simp), if_neg (by simp), if_neg ?hc]
  case hc =>
    rintro ((h | h) | (h | h) | (h | h))
    · exact absurd (show a < 0 from h) (not_lt.mpr ha0)
    · exact absurd (show (255 : ℚ) < a from h) (not_lt.mpr ha1)
    · exact absurd (show b < 0 from h) (not_lt.mpr hb0)
    · exact absurd (show (255 : ℚ) < b from h) (not_lt.mpr hb1)
    · exact absurd (show c < 0 from h) (not_lt.mpr hc0)
    · exact absurd (show (255 : ℚ) < c from h) (not_lt.mpr hc1)
  rfl

/-- Evaluation of `rgba_to_hex` on a valid 4-element list. -/
theorem rgba_to_hex_four (a b c d : ℚ) (hd0 : 0 ≤ d) (hd1 : d ≤ 1)
    (ha0 : 0 ≤ a) (ha1 : a ≤ 255) (hb0 : 0 ≤ b) (hb1 : b ≤ 255)
    (hc0 : 0 ≤ c) (hc1 : c ≤ 255) :
    Color.rgba_to_hex [a, b, c, d] =
      (.ok ("#" ++ zfill2 (pyHexBody (pyCeil (a * d))) ++ zfill2 (pyHexBody (pyCeil (b * d)))
        ++ zfill2 (pyHexBody (pyCeil (c * d)))), [a, b, c, d]) := by
  unfold Color.rgba_to_hex
  rw [if_neg (by simp), if_neg ?hb, if_neg ?hc]
  case hb =>
    rintro ⟨-, h | h⟩
    · exact absurd (show d < 0 from h) (not_lt.mpr hd0)
    · exact absurd (show 1 < d from h) (not_lt.mpr hd1)
  case hc =>
    rintro ((h | h) | (h | h) | (h | h))
    · exact absurd (show a < 0 from h) (not_lt.mpr ha0)
    · exact absurd (show (255 : ℚ) < a from h) (not_lt.mpr ha1)
    · exact absurd (show b < 0 from h) (not_lt.mpr hb0)
    · exact absurd (show (255 : ℚ) < b from h) (not_lt.mpr hb1)
    · exact absurd (show c < 0 from h) (not_lt.mpr hc0)
    · exact absurd (show (255 : ℚ) < c from h) (not_lt.mpr hc1)
  rfl

/-- Evaluation of the list constructor on a valid 4-element list: the result
is `mkColor` of the premultiplied, ceiling-rounded channels. -/
theorem ofList_four (a b c d : ℚ) (hd0 : 0 ≤ d) (hd1 : d ≤ 1)
    (ha0 : 0 ≤ a) (ha1 : a ≤ 255) (hb0 : 0 ≤ b) (hb1 : b ≤ 255)
    (hc0 : 0 ≤ c) (hc1 : c ≤ 255) :
    Color.ofList [a, b, c, d] =
      .ok (mkColor (pyCeil (a * d)) (pyCeil (b * d)) (pyCeil (c * d))) := by
  unfold Color.ofList
  simp only [rgba_to_rgb_four a b c d hd0 hd1 ha0 ha1 hb0 hb1 hc0 hc1,
    rgba_to_hex_four a b c d hd0 hd1 ha0 ha1 hb0 hb1 hc0 hc1]
  rfl

/-- Evaluation of the list constructor on a valid 3-element list: alpha
defaults to `1`. -/
theorem ofList_three (a b c : ℚ)
    (ha0 : 0 ≤ a) (ha1 : a ≤ 255) (hb0 : 0 ≤ b) (hb1 : b ≤ 255)
    (hc0 : 0 ≤ c) (hc1 : c ≤ 255) :
    Color.ofList [a, b, c] =
      .ok (mkColor (pyCeil (a * 1)) (pyCeil (b * 1)) (pyCeil (c * 1))) := by
  unfold Color.ofList
  simp only [rgba_to_rgb_three a b c ha0 ha1 hb0 hb1 hc0 hc1,
    rgba_to_hex_four a b c 1 (by norm_num) (by norm_num) ha0 ha1 hb0 hb1 hc0 hc1]
  rfl

/-- Evaluation of the list constructor on a triple of integer channels in
`[0,255]`: the channels are stored unchanged. -/
theorem ofList_intTriple (x y z : ℤ)
    (hx0 : 0 ≤ x) (hx1 : x ≤ 255) (hy0 : 0 ≤ y) (hy1 : y ≤ 255)
    (hz0 : 0 ≤ z) (hz1 : z ≤ 255) :
    Color.ofList [(x : ℚ), (y : ℚ), (z : ℚ)] = .ok (mkColor x y z) := by
  have h := ofList_three (x : ℚ) (y : ℚ) (z : ℚ)
    (by exact_mod_cast hx0) (by exact_mod_cast hx1) (by exact_mod_cast hy0)
    (by exact_mod_cast hy1) (by exact_mod_cast hz0) (by exact_mod_cast hz1)
  simpa [pyCeil, mul_one, Int.ceil_intCast] using h

/-- The canonical hex string produced by the list constructor parses back to
the stored channels. -/
theorem hex_to_rgb_mkColor (m₀ m₁ m₂ : ℤ)
    (h00 : 0 ≤ m₀) (h01 : m₀ ≤ 255) (h10 : 0 ≤ m₁) (h11 : m₁ ≤ 255)
    (h20 : 0 ≤ m₂) (h21 : m₂ ≤ 255) :
    Color.hex_to_rgb (mkColor m₀ m₁ m₂).hex = .ok [m₀, m₁, m₂] := by
  obtain ⟨len0, hx0, par0⟩ := hexEncodeRoundTrip_int m₀ h00 h01
  obtain ⟨len1, hx1, par1⟩ := hexEncodeRoundTrip_int m₁ h10 h11
  obtain ⟨len2, hx2, par2⟩ := hexEncodeRoundTrip_int m₂ h20 h21
  set e0 := (zfill2 (pyHexBody m₀)).data with he0
  set e1 := (zfill2 (pyHexBody m₁)).data with he1
  set e2 := (zfill2 (pyHexBody m₂)).data with he2
  have hdata : (mkColor m₀ m₁ m₂).hex.data = '#' :: (e0 ++ (e1 ++ e2)) := by
    simp [mkColor, String.data_append, he0, he1, he2]
  have hdrop : ((mkColor m₀ m₁ m₂).hex.data).dropWhile (fun c => c == '#')
      = e0 ++ (e1 ++ e2) := by
    rw [hdata, List.dropWhile_cons_of_pos (by rfl)]
    obtain ⟨d0, d1, he⟩ := List.length_eq_two.mp len0
    have hd0 : isHexDigitChar d0 = true := hx0 d0 (by rw [he]; exact List.mem_cons_self _ _)
    rw [he, List.cons_append, List.dropWhile_cons_of_neg]
    simp [hexDigit_ne_hash d0 hd0]
  have hlen : (e0 ++ (e1 ++ e2)).length = 6 := by
    simp [len0, len1, len2]
  have hall : (e0 ++ (e1 ++ e2)).all isHexDigitChar = true := by
    simp only [List.all_append, Bool.and_eq_true, List.all_eq_true]
    exact ⟨hx0, hx1, hx2⟩
  have hmatch : reMatchHex (e0 ++ (e1 ++ e2)) = true := by
    unfold reMatchHex
    rw [hlen, hall]
    rfl
  simp only [Color.hex_to_rgb]
  rw [hdrop, if_pos hmatch, hlen]
  have htake0 : (e0 ++ (e1 ++ e2)).take (6 / 3) = e0 := List.take_left' len0
  have hdrop0 : (e0 ++ (e1 ++ e2)).drop (6 / 3) = e1 ++ e2 := List.drop_left' len0
  have htake1 : (e1 ++ e2).take (6 / 3) = e1 := List.take_left' len1
  have hdrop4 : (e0 ++ (e1 ++ e2)).drop (6 / 3 * 2) = e2 := by
    rw [show (6 / 3 * 2 : ℕ) = 2 + 2 from rfl, ← List.drop_drop,
      List.drop_left' len0, List.drop_left' len1]
  rw [htake0, hdrop0, htake1, hdrop4, List.take_of_length_le (le_of_eq len2),
    par0, par1, par2]

/-- Every color built by `mkColor` from channels in `[0,255]` is
well-formed. -/
theorem mkColor_WF (m₀ m₁ m₂ : ℤ)
    (h00 : 0 ≤ m₀) (h01 : m₀ ≤ 255) (h10 : 0 ≤ m₁) (h11 : m₁ ≤ 255)
    (h20 : 0 ≤ m₂) (h21 : m₂ ≤ 255) : (mkColor m₀ m₁ m₂).WF := by
  refine ⟨rfl, ?_, hex_to_rgb_mkColor m₀ m₁ m₂ h00 h01 h10 h11 h20 h21, rfl, rfl, rfl⟩
  intro x hx
  have : x = m₀ ∨ x = m₁ ∨ x = m₂ := by simpa [mkColor] using hx
  rcases this with rfl | rfl | rfl
  · exact ⟨h00, h01⟩
  · exact ⟨h10, h11⟩
  · exact ⟨h20, h21⟩

/-- Evaluation of `rgba_to_hex` on a valid 3-element list. -/
theorem rgba_to_hex_three (a b c : ℚ)
    (ha0 : 0 ≤ a) (ha1 : a ≤ 255) (hb0 : 0 ≤ b) (hb1 : b ≤ 255)
    (hc0 : 0 ≤ c) (hc1 : c ≤ 255) :
    Color.rgba_to_hex [a, b, c] =
      (.ok ("#" ++ zfill2 (pyHexBody (pyCeil (a * 1))) ++ zfill2 (pyHexBody (pyCeil (b * 1)))
        ++ zfill2 (pyHexBody (pyCeil (c * 1)))), [a, b, c, 1]) := by
  unfold Color.rgba_to_hex
  rw [if_neg (by simp), if_neg (by simp), if_neg ?hc]
  case hc =>
    rintro ((h | h) | (h | h) | (h | h))
    · exact absurd (show a < 0 from h) (not_lt.mpr ha0)
    · exact absurd (show (255 : ℚ) < a from h) (not_lt.mpr ha1)
    · exact absurd (show b < 0 from h) (not_lt.mpr hb0)
    · exact absurd (show (255 : ℚ) < b from h) (not_lt.mpr hb1)
    · exact absurd (show c < 0 from h) (not_lt.mpr hc0)
    · exact absurd (show (255 : ℚ) < c from h) (not_lt.mpr hc1)
  rfl

/-- Evaluation of `blend_list` on a single item whose normalization yields a
channel triple in range: the mean of one color is the color itself. -/
theorem blend_list_single (it : BlendItem) (x y z : ℤ)
    (h : itemRgb it = .ok [x, y, z])
    (hx0 : 0 ≤ x) (hx1 : x ≤ 255) (hy0 : 0 ≤ y) (hy1 : y ≤ 255)
    (hz0 : 0 ≤ z) (hz1 : z ≤ 255) :
    Color.blend_list [it] = .ok (mkColor x y z) := by
  have e1 : addItem (.ok (0, 0, 0)) it = .ok (x, y, z) := by
    unfold addItem
    rw [h]
    simp
  have hfold : [it].foldl addItem (.ok (0, 0, 0)) = .ok (x, y, z) := by
    rw [List.foldl_cons, e1, List.foldl_nil]
  unfold Color.blend_list
  rw [if_neg (by simp), hfold]
  simp only [List.length_singleton, Nat.cast_one, div_one, pyCeil, Int.ceil_intCast]
  exact ofList_intTriple x y z hx0 hx1 hy0 hy1 hz0 hz1

/-- Evaluation of `blend_list` on two items whose normalizations yield channel
triples in range: the channelwise ceiling mean. -/
theorem blend_list_pair (it1 it2 : BlendItem) (x1 y1 z1 x2 y2 z2 : ℤ)
    (h1 : itemRgb it1 = .ok [x1, y1, z1]) (h2 : itemRgb it2 = .ok [x2, y2, z2])
    (hx10 : 0 ≤ x1) (hx11 : x1 ≤ 255) (hy10 : 0 ≤ y1) (hy11 : y1 ≤ 255)
    (hz10 : 0 ≤ z1) (hz11 : z1 ≤ 255)
    (hx20 : 0 ≤ x2) (hx21 : x2 ≤ 255) (hy20 : 0 ≤ y2) (hy21 : y2 ≤ 255)
    (hz20 : 0 ≤ z2) (hz21 : z2 ≤ 255) :
    Color.blend_list [it1, it2] =
      .ok (mkColor (pyCeil (((x1 + x2 : ℤ) : ℚ) / 2)) (pyCeil (((y1 + y2 : ℤ) : ℚ) / 2))
        (pyCeil (((z1 + z2 : ℤ) : ℚ) / 2))) := by
  have e1 : addItem (.ok (0, 0, 0)) it1 = .ok (x1, y1, z1) := by
    unfold addItem
    rw [h1]
    simp
  have e2 : addItem (.ok (x1, y1, z1)) it2 = .ok (x1 + x2, y1 + y2, z1 + z2) := by
    unfold addItem
    rw [h2]
    simp
  have hfold : [it1, it2].foldl addItem (.ok (0, 0, 0)) = .ok (x1 + x2, y1 + y2, z1 + z2) := by
    rw [List.foldl_cons, e1, List.foldl_cons, e2, List.foldl_nil]
  have hmean : ∀ u v : ℤ, 0 ≤ u → u ≤ 255 → 0 ≤ v → v ≤ 255 →
      0 ≤ pyCeil (((u + v : ℤ) : ℚ) / 2) ∧ pyCeil (((u + v : ℤ) : ℚ) / 2) ≤ 255 := by
    intro u v hu0 hu1 hv0 hv1
    have hu0' : (0 : ℚ) ≤ (u : ℚ) := by exact_mod_cast hu0
    have hu1' : (u : ℚ) ≤ 255 := by exact_mod_cast hu1
    have hv0' : (0 : ℚ) ≤ (v : ℚ) := by exact_mod_cast hv0
    have hv1' : (v : ℚ) ≤ 255 := by exact_mod_cast hv1
    constructor
    · apply Int.ceil_nonneg
      apply div_nonneg _ (by norm_num)
      push_cast
      linarith
    · apply Int.ceil_le.mpr
      push_cast
      rw [div_le_iff₀ (by norm_num : (0 : ℚ) < 2)]
      linarith
  unfold Color.blend_list
  rw [if_neg (by simp), hfold]
  simp only [List.length_cons, List.length_nil, Nat.cast_ofNat]
  exact ofList_intTriple _ _ _ (hmean x1 x2 hx10 hx11 hx20 hx21).1
    (hmean x1 x2 hx10 hx11 hx20 hx21).2 (hmean y1 y2 hy10 hy11 hy20 hy21).1
    (hmean y1 y2 hy10 hy11 hy20 hy21).2 (hmean z1 z2 hz10 hz11 hz20 hz21).1
    (hmean z1 z2 hz10 hz11 hz20 hz21).2

/-- C6: the multi-color blend is an identity on a single color and idempotent
on two identical colors: for every well-formed Color `c`, `blend_list([c])`
and `blend_list([c, c])` both return a Color with exactly `c`'s channels (the
componentwise ceiling of the arithmetic mean of equal integer channels
returns those channels unchanged; equality of colors is channel-content
equality, the hex emitted for the result being the canonical encoding of
those channels). -/
theorem c6_blend_identity_idempotent (c : Color) (h : c.WF) :
    (Color.blend_list [.color c]).map Color.rgb = .ok c.rgb ∧
    (Color.blend_list [.color c, .color c]).map Color.rgb = .ok c.rgb := by
  obtain ⟨hlen, hbd, -, -, -, -⟩ := h
  obtain ⟨x, y, z, hc⟩ := List.length_eq_three.mp hlen
  have hx := hbd x (by rw [hc]; exact List.mem_cons_self _ _)
  have hy := hbd y (by rw [hc]; simp)
  have hz := hbd z (by rw [hc]; simp)
  have hitem : itemRgb (.color c) = .ok [x, y, z] := by
    simp [itemRgb, hc]
  constructor
  · rw [blend_list_single (.color c) x y z hitem hx.1 hx.2 hy.1 hy.2 hz.1 hz.2]
    simp [Except.map, mkColor, hc]
  · rw [blend_list_pair (.color c) (.color c) x y z x y z hitem hitem
      hx.1 hx.2 hy.1 hy.2 hz.1 hz.2 hx.1 hx.2 hy.1 hy.2 hz.1 hz.2]
    have hu : ∀ u : ℤ, pyCeil (((u + u : ℤ) : ℚ) / 2) = u := by
      intro u
      have h2 : (((u + u : ℤ) : ℚ)) / 2 = (u : ℚ) := by push_cast; ring
      rw [pyCeil, h2, Int.ceil_intCast]
    simp [Except.map, mkColor, hc, hu, pyCeil, Int.ceil_intCast]

/-- C6 witness: the identity and idempotence at the concrete color
`#121212`. -/
theorem c6_blend_identity_idempotent_witness :
    (Color.blend_list [.color (mkColor 18 18 18)]).map Color.rgb
      = .ok (mkColor 18 18 18).rgb ∧
    (Color.blend_list [.color (mkColor 18 18 18), .color (mkColor 18 18 18)]).map Color.rgb
      = .ok (mkColor 18 18 18).rgb :=
  c6_blend_identity_idempotent (mkColor 18 18 18) (by decide)

/-- C8: for well-formed Colors, `blend(other, inplace=False)` returns the
value of `blend_list([self, other])` and leaves `self` unchanged, while
`blend(other, inplace=True)` returns that same blended value and installs it
as the new state of `self` (the same Python instance is returned with its
fields overwritten). -/
theorem c8_blend_value_and_frame (c1 c2 : Color) (h1 : c1.WF) (h2 : c2.WF) :
    ∃ bl, Color.blend_list [.color c1, .color c2] = .ok bl ∧
      Color.blend c1 c2 false = .ok (bl, c1) ∧
      Color.blend c1 c2 true = .ok (bl, bl) := by
  obtain ⟨hlen1, hbd1, hparse1, -, -, -⟩ := h1
  obtain ⟨hlen2, hbd2, hparse2, -, -, -⟩ := h2
  obtain ⟨x1, y1, z1, hc1⟩ := List.length_eq_three.mp hlen1
  obtain ⟨x2, y2, z2, hc2⟩ := List.length_eq_three.mp hlen2
  have hx1 := hbd1 x1 (by rw [hc1]; exact List.mem_cons_self _ _)
  have hy1 := hbd1 y1 (by rw [hc1]; simp)
  have hz1 := hbd1 z1 (by rw [hc1]; simp)
  have hx2 := hbd2 x2 (by rw [hc2]; exact List.mem_cons_self _ _)
  have hy2 := hbd2 y2 (by rw [hc2]; simp)
  have hz2 := hbd2 z2 (by rw [hc2]; simp)
  have hitem1 : itemRgb (.color c1) = .ok [x1, y1, z1] := by simp [itemRgb, hc1]
  have hitem2 : itemRgb (.color c2) = .ok [x2, y2, z2] := by simp [itemRgb, hc2]
  have hhex1 : itemRgb (.hexStr c1.hex) = .ok [x1, y1, z1] := by
    show Color.hex_to_rgb c1.hex = .ok [x1, y1, z1]
    rw [hparse1, hc1]
  have hhex2 : itemRgb (.hexStr c2.hex) = .ok [x2, y2, z2] := by
    show Color.hex_to_rgb c2.hex = .ok [x2, y2, z2]
    rw [hparse2, hc2]
  refine ⟨_, blend_list_pair (.color c1) (.color c2) x1 y1 z1 x2 y2 z2 hitem1 hitem2
    hx1.1 hx1.2 hy1.1 hy1.2 hz1.1 hz1.2 hx2.1 hx2.2 hy2.1 hy2.2 hz2.1 hz2.2, ?_, ?_⟩
  · unfold Color.blend
    rw [blend_list_pair (.hexStr c1.hex) (.hexStr c2.hex) x1 y1 z1 x2 y2 z2 hhex1 hhex2
      hx1.1 hx1.2 hy1.1 hy1.2 hz1.1 hz1.2 hx2.1 hx2.2 hy2.1 hy2.2 hz2.1 hz2.2]
    rfl
  · unfold Color.blend
    rw [blend_list_pair (.hexStr c1.hex) (.hexStr c2.hex) x1 y1 z1 x2 y2 z2 hhex1 hhex2
      hx1.1 hx1.2 hy1.1 hy1.2 hz1.1 hz1.2 hx2.1 hx2.2 hy2.1 hy2.2 hz2.1 hz2.2]
    rfl

/-- C8 witness: the blend value and frame conditions at the concrete colors
`#121212` and `#ffffff`. -/
theorem c8_blend_value_and_frame_witness :
    ∃ bl, Color.blend_list [.color (mkColor 18 18 18), .color (mkColor 255 255 255)] = .ok bl ∧
      Color.blend (mkColor 18 18 18) (mkColor 255 255 255) false = .ok (bl, mkColor 18 18 18) ∧
      Color.blend (mkColor 18 18 18) (mkColor 255 255 255) true = .ok (bl, bl) :=
  c8_blend_value_and_frame (mkColor 18 18 18) (mkColor 255 255 255) (by decide) (by decide)

/-- C9: writing a valid value to the `r` channel of a well-formed Color
recomputes both representations at once: the new state equals the Color
freshly constructed from `[v, g, b]`, its channel list is `[v, g, b]`, and
its hex field parses back to exactly that channel list, so `rgb` and `hex`
agree in every observable state. -/
theorem c9_channel_write_consistency (c : Color) (h : c.WF) (v : ℤ)
    (hv0 : 0 ≤ v) (hv1 : v ≤ 255) :
    ∃ c', Color.setR c (v : ℚ) = .ok c' ∧
      Color.ofList [(v : ℚ), (c.g : ℚ), (c.b : ℚ)] = .ok c' ∧
      c'.rgb = [v, c.g, c.b] ∧ Color.hex_to_rgb c'.hex = .ok c'.rgb := by
  obtain ⟨hlen, hbd, hparse, hr, hg, hb⟩ := h
  obtain ⟨x, y, z, hc⟩ := List.length_eq_three.mp hlen
  have hy := hbd y (by rw [hc]; simp)
  have hz := hbd z (by rw [hc]; simp)
  have hgy : c.g = y := by rw [hg, hc]; rfl
  have hbz : c.b = z := by rw [hb, hc]; rfl
  refine ⟨mkColor v y z, ?_, ?_, ?_, ?_⟩
  · unfold Color.setR
    rw [hc]
    exact ofList_intTriple v y z hv0 hv1 hy.1 hy.2 hz.1 hz.2
  · rw [hgy, hbz]
    exact ofList_intTriple v y z hv0 hv1 hy.1 hy.2 hz.1 hz.2
  · rw [hgy, hbz]
    rfl
  · exact hex_to_rgb_mkColor v y z hv0 hv1 hy.1 hy.2 hz.1 hz.2

/-- C9 witness: setting `r := 50` on the concrete color `#121212`. -/
theorem c9_channel_write_consistency_witness :
    ∃ c', Color.setR (mkColor 18 18 18) ((50 : ℤ) : ℚ) = .ok c' ∧
      Color.ofList [((50 : ℤ) : ℚ), ((mkColor 18 18 18).g : ℚ), ((mkColor 18 18 18).b : ℚ)]
        = .ok c' ∧
      c'.rgb = [50, (mkColor 18 18 18).g, (mkColor 18 18 18).b] ∧
      Color.hex_to_rgb c'.hex = .ok c'.rgb :=
  c9_channel_write_consistency (mkColor 18 18 18) (by decide) 50 (by decide) (by decide)

/-- C10 counterexample: the 3-element list `[300, 0, 0]` is passed to the
conversion, which raises before reaching the append, so the caller's list is
left unchanged with length 3 — refuting the claim that every 3-element list
ends up with length 4 after the call. -/
theorem c10_invalid_list_unchanged :
    (Color.rgba_to_rgb [300, 0, 0]).1 = .error .valueError ∧
    (Color.rgba_to_rgb [300, 0, 0]).2 = [300, 0, 0] ∧
    ((Color.rgba_to_rgb [300, 0, 0]).2).length = 3 := by
  refine ⟨?_, ?_, ?_⟩ <;> decide

/-- C10 amended: for every 3-element channel list that passes validation
(all channels in `[0,255]`), both conversions mutate the caller's list in
place by appending the default alpha `1`: afterwards the list is `L ++ [1]`,
has length 4, and is not the original list. -/
theorem c10_append_alpha_mutation (l : List ℚ) (h3 : l.length = 3)
    (hch : ∀ x ∈ l, 0 ≤ x ∧ x ≤ 255) :
    (Color.rgba_to_rgb l).2 = l ++ [1] ∧ (Color.rgba_to_rgb l).2.length = 4 ∧
      (Color.rgba_to_rgb l).2 ≠ l ∧ (Color.rgba_to_hex l).2 = l ++ [1] := by
  obtain ⟨a, b, c, rfl⟩ := List.length_eq_three.mp h3
  have ha := hch a (by exact List.mem_cons_self _ _)
  have hb := hch b (by simp)
  have hc := hch c (by simp)
  rw [rgba_to_rgb_three a b c ha.1 ha.2 hb.1 hb.2 hc.1 hc.2,
    rgba_to_hex_three a b c ha.1 ha.2 hb.1 hb.2 hc.1 hc.2]
  refine ⟨rfl, rfl, ?_, rfl⟩
  intro hEq
  have := congrArg List.length hEq
  simp at this

/-- C10 witness: the amended statement at the concrete list `[1, 2, 3]`. -/
theorem c10_append_alpha_mutation_witness :
    (Color.rgba_to_rgb [1, 2, 3]).2 = [1, 2, 3] ++ [1] ∧
      (Color.rgba_to_rgb [1, 2, 3]).2.length = 4 ∧
      (Color.rgba_to_rgb [1, 2, 3]).2 ≠ [1, 2, 3] ∧
      (Color.rgba_to_hex [1, 2, 3]).2 = [1, 2, 3] ++ [1] :=
  c10_append_alpha_mutation [1, 2, 3] (by decide) (by decide)

/-- Evaluation of `rgba_to_rgb` when the list length is neither 3 nor 4. -/
theorem rgba_to_rgb_badlen (l : List ℚ) (h3 : l.length ≠ 3) (h4 : l.length ≠ 4) :
    Color.rgba_to_rgb l = (.error .valueError, l) := by
  unfold Color.rgba_to_rgb
  rw [if_pos ⟨h3, h4⟩]

/-- Evaluation of `rgba_to_rgb` on a 3-element list with an out-of-range
channel. -/
theorem rgba_to_rgb_three_bad (a b c : ℚ)
    (hC : (a < 0 ∨ 255 < a) ∨ (b < 0 ∨ 255 < b) ∨ (c < 0 ∨ 255 < c)) :
    Color.rgba_to_rgb [a, b, c] = (.error .valueError, [a, b, c]) := by
  unfold Color.rgba_to_rgb
  split_ifs with h1 h2 h3 h4
  · rfl
  · rfl
  · rfl
  all_goals exact absurd hC h3

/-- Evaluation of `rgba_to_rgb` on a 4-element list with an out-of-range
alpha. -/
theorem rgba_to_rgb_four_bad_alpha (a b c d : ℚ) (hA : d < 0 ∨ 1 < d) :
    Color.rgba_to_rgb [a, b, c, d] = (.error .valueError, [a, b, c, d]) := by
  unfold Color.rgba_to_rgb
  split_ifs with h1 h2 h3 h4
  · rfl
  · rfl
  · rfl
  all_goals exact absurd (And.intro rfl hA) h2

/-- Evaluation of `rgba_to_rgb` on a 4-element list with a valid alpha but an
out-of-range channel. -/
theorem rgba_to_rgb_four_bad_chan (a b c d : ℚ)
    (hC : (a < 0 ∨ 255 < a) ∨ (b < 0 ∨ 255 < b) ∨ (c < 0 ∨ 255 < c)) :
    Color.rgba_to_rgb [a, b, c, d] = (.error .valueError, [a, b, c, d]) := by
  unfold Color.rgba_to_rgb
  split_ifs with h1 h2 h3 h4
  · rfl
  · rfl
  · rfl
  all_goals exact absurd hC h3

/-- The constructor propagates a failure of the first conversion. -/
theorem ofList_error_of_rgb_error (l : List ℚ)
    (h : Color.rgba_to_rgb l = (.error .valueError, l)) :
    Color.ofList l = .error .valueError := by
  unfold Color.ofList
  rw [h]

/-- C4: channel-list construction of a Color fails exactly when the list
length is neither 3 nor 4, or some r/g/b channel lies outside `[0,255]`, or a
present alpha lies outside the closed interval `[0,1]`; in particular
`[300,0,0]` and alpha `1.5` are rejected while the boundary alphas `0` and
`1` are accepted. -/
theorem c4_channel_validation :
    (∀ l : List ℚ, exceptIsOk (Color.ofList l) = true ↔
      ((l.length = 3 ∨ l.length = 4) ∧ (∀ x ∈ l.take 3, 0 ≤ x ∧ x ≤ 255) ∧
        (∀ a ∈ l.drop 3, 0 ≤ a ∧ a ≤ 1))) ∧
    exceptIsOk (Color.ofList [300, 0, 0]) = false ∧
    exceptIsOk (Color.ofList [10, 10, 10, 3/2]) = false ∧
    exceptIsOk (Color.ofList [10, 10, 10, 0]) = true ∧
    exceptIsOk (Color.ofList [10, 10, 10, 1]) = true := by
  refine ⟨?_, by decide, by decide, by decide, by decide⟩
  intro l
  by_cases h3 : l.length = 3
  · obtain ⟨a, b, c, rfl⟩ := List.length_eq_three.mp h3
    by_cases hC : (a < 0 ∨ 255 < a) ∨ (b < 0 ∨ 255 < b) ∨ (c < 0 ∨ 255 < c)
    · rw [ofList_error_of_rgb_error _ (rgba_to_rgb_three_bad a b c hC)]
      simp only [exceptIsOk, Bool.false_eq_true, false_iff]
      rintro ⟨-, hch, -⟩
      have ha := hch a (by simp)
      have hb := hch b (by simp)
      have hc := hch c (by simp)
      rcases hC with (h | h) | (h | h) | (h | h) <;> linarith [ha.1, ha.2, hb.1, hb.2, hc.1, hc.2]
    · push_neg at hC
      obtain ⟨⟨ha0, ha1⟩, ⟨hb0, hb1⟩, ⟨hc0, hc1⟩⟩ := hC
      rw [ofList_three a b c ha0 ha1 hb0 hb1 hc0 hc1]
      simp only [exceptIsOk, true_iff]
      refine ⟨Or.inl rfl, ?_, ?_⟩
      · intro x hx
        simp only [List.take] at hx
        simp only [List.mem_cons, List.not_mem_nil, or_false] at hx
        rcases hx with rfl | rfl | rfl
        · exact ⟨ha0, ha1⟩
        · exact ⟨hb0, hb1⟩
        · exact ⟨hc0, hc1⟩
      · intro x hx
        simp at hx
  · by_cases h4 : l.length = 4
    · obtain ⟨a, b, c, d, rfl⟩ : ∃ a b c d, l = [a, b, c, d] := by
        rcases l with - | ⟨a, - | ⟨b, - | ⟨c, - | ⟨d, - | ⟨e, tl⟩⟩⟩⟩⟩
        · simp at h4
        · simp at h4
        · simp at h4
        · simp at h4
        · exact ⟨a, b, c, d, rfl⟩
        · simp only [List.length_cons] at h4
          omega
      by_cases hA : d < 0 ∨ 1 < d
      · rw [ofList_error_of_rgb_error _ (rgba_to_rgb_four_bad_alpha a b c d hA)]
        simp only [exceptIsOk, Bool.false_eq_true, false_iff]
        rintro ⟨-, -, hal⟩
        have hd := hal d (by simp [List.drop])
        rcases hA with h | h <;> linarith [hd.1, hd.2]
      · by_cases hC : (a < 0 ∨ 255 < a) ∨ (b < 0 ∨ 255 < b) ∨ (c < 0 ∨ 255 < c)
        · rw [ofList_error_of_rgb_error _ (rgba_to_rgb_four_bad_chan a b c d hC)]
          simp only [exceptIsOk, Bool.false_eq_true, false_iff]
          rintro ⟨-, hch, -⟩
          have ha := hch a (by simp [List.take])
          have hb := hch b (by simp [List.take])
          have hc := hch c (by simp [List.take])
          rcases hC with (h | h) | (h | h) | (h | h) <;>
            linarith [ha.1, ha.2, hb.1, hb.2, hc.1, hc.2]
        · push_neg at hA hC
          obtain ⟨⟨ha0, ha1⟩, ⟨hb0, hb1⟩, ⟨hc0, hc1⟩⟩ := hC
          rw [ofList_four a b c d hA.1 hA.2 ha0 ha1 hb0 hb1 hc0 hc1]
          simp only [exceptIsOk, true_iff]
          refine ⟨Or.inr rfl, ?_, ?_⟩
          · intro x hx
            simp only [List.take] at hx
            simp only [List.mem_cons, List.not_mem_nil, or_false] at hx
            rcases hx with rfl | rfl | rfl
            · exact ⟨ha0, ha1⟩
            · exact ⟨hb0, hb1⟩
            · exact ⟨hc0, hc1⟩
          · intro x hx
            simp only [List.drop, List.mem_singleton] at hx
            subst hx
            exact ⟨hA.1, hA.2⟩
    · rw [ofList_error_of_rgb_error _ (rgba_to_rgb_badlen l h3 h4)]
      simp only [exceptIsOk, Bool.false_eq_true, false_iff]
      rintro ⟨h34, -, -⟩
      rcases h34 with h | h
      · exact h3 h
      · exact h4 h

/-- Construction from a hex string succeeds exactly when the stripped string
matches the regex. -/
theorem ofHex_isOk_iff_reMatch (s : String) :
    exceptIsOk (Color.ofHex s) = true ↔
      reMatchHex (s.data.dropWhile (fun c => c == '#')) = true := by
  simp only [Color.ofHex, Color.hex_to_rgb]
  by_cases h : reMatchHex (s.data.dropWhile (fun c => c == '#')) = true
  · rw [if_pos h]
    simp [exceptIsOk, h]
  · rw [if_neg h]
    simp [exceptIsOk, h]

/-- Dropping `'#'` characters consumes a `'#'` prefix entirely. -/
theorem dropWhile_hash_replicate (k : ℕ) (rest : List Char) :
    (List.replicate k '#' ++ rest).dropWhile (fun c => c == '#') =
      rest.dropWhile (fun c => c == '#') := by
  induction k with
  | zero => simp
  | succ n ih =>
    rw [List.replicate_succ, List.cons_append, List.dropWhile_cons_of_pos (by rfl)]
    exact ih

/-- C5 counterexample: the claim says every string that is not exactly six
hex digits with at most one `'#'` prefix must fail, but `"##abcdef"` (two
`'#'` prefixes, stripped entirely by `lstrip("#")`) and `"abcdef\n"` (a
trailing newline admitted by the regex `$` anchor) are both accepted. -/
theorem c5_extra_strings_accepted :
    exceptIsOk (Color.ofHex "##abcdef") = true ∧
    exceptIsOk (Color.ofHex "abcdef\n") = true ∧
    (Color.ofHex "##abcdef").map Color.rgb = .ok [171, 205, 239] := by
  refine ⟨?_, ?_, ?_⟩ <;> decide

/-- C5 amended: construction from a string `s` succeeds if and only if `s`
consists of zero or more `'#'` characters, then exactly six hexadecimal
digits, then optionally a single trailing newline; every other string fails
with the validation error. -/
theorem c5_accepted_hex_strings (s : String) :
    exceptIsOk (Color.ofHex s) = true ↔ pyAcceptedHex s := by
  rw [ofHex_isOk_iff_reMatch]
  constructor
  · intro h
    have hsplit : s.data = s.data.takeWhile (fun c => c == '#') ++
        s.data.dropWhile (fun c => c == '#') :=
      (List.takeWhile_append_dropWhile _ _).symm
    have hrep : s.data.takeWhile (fun c => c == '#') =
        List.replicate (s.data.takeWhile (fun c => c == '#')).length '#' := by
      apply List.eq_replicate_of_mem
      intro b hb
      have hb2 := List.mem_takeWhile_imp hb
      exact eq_of_beq hb2
    set t := s.data.dropWhile (fun c => c == '#') with ht
    unfold reMatchHex at h
    rw [Bool.or_eq_true] at h
    rcases h with h | h
    · rw [Bool.and_eq_true] at h
      obtain ⟨hlen, hall⟩ := h
      refine ⟨(s.data.takeWhile (fun c => c == '#')).length, t, [], ?_, ?_, ?_, Or.inl rfl⟩
      · rw [List.append_nil, ← hrep]
        exact hsplit
      · simpa using hlen
      · exact fun c hc => List.all_eq_true.mp hall c hc
    · rw [Bool.and_eq_true, Bool.and_eq_true] at h
      obtain ⟨⟨hlen, hall⟩, hnl⟩ := h
      have hlen7 : t.length = 7 := by simpa using hlen
      have htl : t.drop 6 = ['\n'] := by
        have hl1 : (t.drop 6).length = 1 := by
          rw [List.length_drop, hlen7]
        obtain ⟨x, hx⟩ := List.length_eq_one.mp hl1
        have hx6 : t.getD 6 ' ' = x := by
          rw [List.getD_eq_getElem?_getD, show (6 : ℕ) = 6 + 0 from rfl,
            ← List.getElem?_drop, hx]
          rfl
        have : x = '\n' := by
          rw [← hx6]
          exact eq_of_beq hnl
        rw [hx, this]
      refine ⟨(s.data.takeWhile (fun c => c == '#')).length, t.take 6, ['\n'], ?_, ?_, ?_,
        Or.inr rfl⟩
      · rw [← htl, List.append_assoc, List.take_append_drop, ← hrep]
        exact hsplit
      · simp [List.length_take, hlen7]
      · intro c hc
        exact List.all_eq_true.mp hall c hc
  · rintro ⟨k, ds, tl, hdata, hlen, hhex, htl⟩
    obtain ⟨d, ds', rfl⟩ : ∃ d ds', ds = d :: ds' := by
      cases ds with
      | nil => simp at hlen
      | cons d ds' => exact ⟨d, ds', rfl⟩
    have hstrip : s.data.dropWhile (fun c => c == '#') = (d :: ds') ++ tl := by
      rw [hdata, List.append_assoc, dropWhile_hash_replicate, List.cons_append,
        List.dropWhile_cons_of_neg]
      simp [hexDigit_ne_hash d (hhex d (List.mem_cons_self _ _))]
    rw [hstrip]
    have hall : (d :: ds').all isHexDigitChar = true := List.all_eq_true.mpr hhex
    rcases htl with rfl | rfl
    · simp [reMatchHex, List.append_nil, hlen, hall]
    · have hlen7 : ((d :: ds') ++ ['\n']).length = 7 := by
        rw [List.length_append, hlen]
        decide
      have htk : ((d :: ds') ++ ['\n']).take 6 = d :: ds' := List.take_left' hlen
      have hgd : ((d :: ds') ++ ['\n']).getD 6 ' ' = '\n' := by
        rw [List.getD_eq_getElem?_getD, List.getElem?_append_right (le_of_eq hlen), hlen]
        rfl
      unfold reMatchHex
      rw [hlen7, htk, hall, hgd]
      rfl
